import Mathlib

/-!
Verification of the OTP (one-time passcode) lifecycle manager of the
`bera-tech-ai/I-m-the-best-` repository.

The core under study is the in-memory OTP store of `src/server.js`
(the primary variant, lines 1-310): the `otpStore` map, the
`generateOTP` function (line 97-99), the record-creation part of the
`POST /api/send-otp` handler (lines 136-145) and the
`POST /api/verify-otp` handler (lines 231-277, i.e. after the
request-body presence guard).  Timestamps (`Date.now()`,
`expiresAt`) are modelled as natural-number milliseconds; JavaScript
number arithmetic on the small quantities involved (attempt counters
up to 3, `3 - attempts`) is modelled with `Nat` / `Int` as noted at
each definition.  Randomness (`crypto.randomInt`, `crypto.randomBytes`)
is modelled by passing the entropy as an explicit argument.
-/

namespace Otp

/-- Decimal digit character: `digitChar d` is the character for a digit
`d < 10`, as produced by JavaScript number-to-string conversion. -/
def digitChar (d : Nat) : Char := Char.ofNat (48 + d)

/-- Decimal representation of a natural number, most significant digit
first.  Models JavaScript `Number.prototype.toString()` (radix 10) on a
nonnegative integer, as used in `generateOTP` (`src/server.js` line 98). -/
def toDecimal (n : Nat) : List Char :=
  if n < 10 then [digitChar n]
  else toDecimal (n / 10) ++ [digitChar (n % 10)]
termination_by n
decreasing_by exact Nat.div_lt_self (by omega) (by omega)

/-- String form of `toDecimal`. -/
def numToString (n : Nat) : String := String.mk (toDecimal n)

/-- Model of Node's `crypto.randomInt(min, max)`: a uniformly random
integer in the half-open interval `[min, max)`.  The entropy source is
made explicit: `entropy` is an arbitrary natural and the result is
`min + entropy % (max - min)`, so that under a uniform `entropy` the
result is uniform over `[min, max)` and exactly the values of
`[min, max)` are reachable. -/
def randomInt (lo hi entropy : Nat) : Nat := lo + entropy % (hi - lo)

/-- The numeric value drawn by `generateOTP` (`src/server.js` lines 97-99):
`crypto.randomInt(100000, 999999)`. -/
def generateOTPNum (entropy : Nat) : Nat := randomInt 100000 999999 entropy

/-- The function `generateOTP` (`src/server.js` lines 97-99):
`crypto.randomInt(100000, 999999).toString()`. -/
def generateOTP (entropy : Nat) : String := numToString (generateOTPNum entropy)

/-- Lower-case hexadecimal digit character for `d < 16`, as produced by
Node's `Buffer.prototype.toString('hex')`. -/
def hexDigitChar (d : Nat) : Char :=
  if d < 10 then Char.ofNat (48 + d) else Char.ofNat (87 + d)

/-- Two hex characters of one byte (value taken mod 256), high nibble first. -/
def byteToHex (b : Nat) : List Char :=
  [hexDigitChar (b % 256 / 16), hexDigitChar (b % 256 % 16)]

/-- Model of `crypto.randomBytes(n).toString('hex')`
(`src/server.js` line 267): the random bytes are passed explicitly as a
list of byte values and hex-encoded. -/
def hexEncode (bytes : List Nat) : String :=
  String.mk (List.flatten (bytes.map byteToHex))

/-- One stored OTP record (`src/server.js` lines 141-145): the value kept
in `otpStore` under an email key. `otp` is the 6-digit code string,
`expiresAt` a millisecond timestamp, `attempts` the failed-attempt
counter (starts at 0). -/
structure OtpRecord where
  otp : String
  expiresAt : Nat
  attempts : Nat
deriving Repr, DecidableEq

/-- The `otpStore` map (`src/server.js` line 18), modelled extensionally
as a function from email keys to optional records. -/
def Store : Type := String → Option OtpRecord

/-- Model of `otpStore.set(email, data)`. -/
def Store.set (s : Store) (k : String) (v : OtpRecord) : Store :=
  fun q => if q = k then some v else s q

/-- Model of `otpStore.delete(email)`. -/
def Store.delete (s : Store) (k : String) : Store :=
  fun q => if q = k then none else s q

/-- The initially empty store. -/
def Store.empty : Store := fun _ => none

/-- The verification outcomes of the `POST /api/verify-otp` handler
(`src/server.js` lines 231-277), named as in the specification:
`notFound` is the "No OTP found" 400 response, `expired` the
"OTP has expired" response, `attemptsExhausted` the
"Maximum OTP attempts exceeded" response, `success` the 200 response
carrying the proof token, `invalid` the "Invalid OTP" response carrying
`remainingAttempts` (an `Int`, mirroring the JavaScript number
computed at lines 270-275). -/
inductive VerifyResult where
  | notFound : VerifyResult
  | expired : VerifyResult
  | attemptsExhausted : VerifyResult
  | success (token : String) : VerifyResult
  | invalid (remainingAttempts : Int) : VerifyResult
deriving Repr, DecidableEq

/-- Core of the `POST /api/send-otp` handler (`src/server.js` lines
136-145): generate a code, compute `expiresAt = Date.now() + 5*60*1000`,
store the record with `attempts = 0` (replacing any existing record for
this email), and return the new record.  `now` is `Date.now()` and
`entropy` the randomness consumed by `generateOTP`. -/
def issue (s : Store) (now : Nat) (email : String) (entropy : Nat) :
    OtpRecord × Store :=
  let otp := generateOTP entropy
  let expiresAt := now + 5 * 60 * 1000
  let record : OtpRecord := { otp := otp, expiresAt := expiresAt, attempts := 0 }
  (record, s.set email record)

/-- Core of the `POST /api/verify-otp` handler (`src/server.js` lines
231-277, after the body-presence guard of lines 227-229): look the email
up; report `notFound` if absent; delete and report `expired` if
`Date.now() > expiresAt` (strict); delete and report `attemptsExhausted`
if `attempts >= 3`; otherwise increment `attempts`, store the record
back, and compare the code: on a match delete the record and return
`success` with a fresh 32-byte hex token, otherwise return `invalid`
with `remainingAttempts = 3 - attempts` clamped below at 0 (lines
270-275; the record is stored back with the incremented counter and is
NOT deleted on this path).  `now` is `Date.now()`, `tokenEntropy` the
bytes drawn by `crypto.randomBytes(32)`. -/
def verify (s : Store) (now : Nat) (email otp : String)
    (tokenEntropy : List Nat) : VerifyResult × Store :=
  match s email with
  | none => (.notFound, s)
  | some storedData =>
    if now > storedData.expiresAt then
      (.expired, s.delete email)
    else if storedData.attempts ≥ 3 then
      (.attemptsExhausted, s.delete email)
    else
      let incremented : OtpRecord := { storedData with attempts := storedData.attempts + 1 }
      let s1 := Store.set s email incremented
      if incremented.otp = otp then
        (.success (hexEncode tokenEntropy), s1.delete email)
      else
        let remaining : Int := 3 - (incremented.attempts : Int)
        (.invalid (if remaining > 0 then remaining else 0), s1)

/-- A sample record used to evaluate the verifier at concrete inputs:
code "123456", expiry at millisecond 1000, with a given attempt count. -/
def sampleRecord (attempts : Nat) : OtpRecord :=
  { otp := "123456", expiresAt := 1000, attempts := attempts }

/-- A store holding exactly one sample record under `"a@example.com"`. -/
def oneRecordStore (attempts : Nat) : Store :=
  Store.empty.set "a@example.com" (sampleRecord attempts)

/-! ### Helper lemmas on decimal and hexadecimal rendering -/

theorem digitChar_isDigit (d : Nat) (hd : d < 10) : (digitChar d).isDigit := by
  interval_cases d <;> decide

theorem digitChar_ne_zeroChar (d : Nat) (h1 : 1 ≤ d) (hd : d < 10) :
    digitChar d ≠ Char.ofNat 48 := by
  interval_cases d <;> decide

theorem toDecimal_length (k : Nat) :
    ∀ n, 10 ^ k ≤ n → n < 10 ^ (k + 1) → (toDecimal n).length = k + 1 := by
  induction k with
  | zero =>
    intro n h1 h2
    rw [toDecimal, if_pos (by simpa using h2)]
    rfl
  | succ k ih =>
    intro n h1 h2
    have hpow : (10 : Nat) ^ (k + 1) = 10 ^ k * 10 := pow_succ 10 k
    have hpow2 : (10 : Nat) ^ (k + 2) = 10 ^ (k + 1) * 10 := pow_succ 10 (k + 1)
    have hk1 : (1 : Nat) ≤ 10 ^ k := Nat.one_le_pow k 10 (by norm_num)
    have hge : ¬ n < 10 := by rw [hpow] at h1; omega
    rw [toDecimal, if_neg hge, List.length_append]
    have hlow : 10 ^ k ≤ n / 10 := by
      rw [Nat.le_div_iff_mul_le (by norm_num)]
      omega
    have hhigh : n / 10 < 10 ^ (k + 1) := by
      rw [Nat.div_lt_iff_lt_mul (by norm_num)]
      omega
    rw [ih (n / 10) hlow hhigh]
    rfl

theorem toDecimal_head (k : Nat) :
    ∀ n, 10 ^ k ≤ n → n < 10 ^ (k + 1) →
      (toDecimal n).head? = some (digitChar (n / 10 ^ k)) := by
  induction k with
  | zero =>
    intro n h1 h2
    rw [toDecimal, if_pos (by simpa using h2)]
    simp
  | succ k ih =>
    intro n h1 h2
    have hpow : (10 : Nat) ^ (k + 1) = 10 ^ k * 10 := pow_succ 10 k
    have hpow2 : (10 : Nat) ^ (k + 2) = 10 ^ (k + 1) * 10 := pow_succ 10 (k + 1)
    have hk1 : (1 : Nat) ≤ 10 ^ k := Nat.one_le_pow k 10 (by norm_num)
    have hge : ¬ n < 10 := by rw [hpow] at h1; omega
    have hlow : 10 ^ k ≤ n / 10 := by
      rw [Nat.le_div_iff_mul_le (by norm_num)]
      omega
    have hhigh : n / 10 < 10 ^ (k + 1) := by
      rw [Nat.div_lt_iff_lt_mul (by norm_num)]
      omega
    have ih1 := ih (n / 10) hlow hhigh
    rw [toDecimal, if_neg hge]
    cases hl : toDecimal (n / 10) with
    | nil => rw [hl] at ih1; simp at ih1
    | cons c t =>
      rw [hl] at ih1
      simp only [List.head?_cons, Option.some.injEq] at ih1
      have hdiv : n / 10 / 10 ^ k = n / 10 ^ (k + 1) := by
        rw [Nat.div_div_eq_div_mul, hpow, mul_comm (10 ^ k) 10, mul_comm 10 (10 ^ k)]
      simp [ih1, hdiv]

theorem toDecimal_mem (n : Nat) :
    ∀ c ∈ toDecimal n, ∃ d, d < 10 ∧ c = digitChar d := by
  induction n using Nat.strong_induction_on with
  | _ n ih =>
    rw [toDecimal]
    split
    · intro c hc
      simp only [List.mem_singleton] at hc
      exact ⟨n, by omega, hc⟩
    · intro c hc
      rw [List.mem_append] at hc
      rcases hc with hc | hc
      · exact ih (n / 10) (Nat.div_lt_self (by omega) (by omega)) c hc
      · simp only [List.mem_singleton] at hc
        exact ⟨n % 10, Nat.mod_lt _ (by omega), hc⟩

/-! ### C2: range and shape of generated codes -/

/-- C2 (counterexample): the claim states 999999 is a possible output of
`generateOTP`.  It is not: `crypto.randomInt(min, max)` draws from the
half-open range `[min, max)`, so `generateOTPNum` never takes the value
999999 for any entropy. -/
theorem generateOTPNum_never_999999 : ¬ ∃ e : Nat, generateOTPNum e = 999999 := by
  rintro ⟨e, he⟩
  simp only [generateOTPNum, randomInt] at he
  omega

/-- C2 (amended): every generated code value lies in the inclusive range
100000–999998, the rendered code is exactly 6 characters, all of them
decimal digits, the first never `'0'`; and the draw is uniform over that
range: each value in 100000–999998 is produced by exactly one entropy
value in `[0, 899999)`. -/
theorem generateOTP_range_digits_uniform :
    (∀ e : Nat,
      100000 ≤ generateOTPNum e ∧ generateOTPNum e ≤ 999998 ∧
      (generateOTP e).length = 6 ∧
      (∀ c ∈ (generateOTP e).data, c.isDigit) ∧
      (generateOTP e).data.head? ≠ some (Char.ofNat 48)) ∧
    (∀ k : Nat, 100000 ≤ k → k ≤ 999998 →
      ∃! e : Fin 899999, generateOTPNum e.val = k) := by
  constructor
  · intro e
    have hlo : 100000 ≤ generateOTPNum e := by
      simp only [generateOTPNum, randomInt]; omega
    have hhi : generateOTPNum e ≤ 999998 := by
      simp only [generateOTPNum, randomInt]; omega
    have hlo5 : 10 ^ 5 ≤ generateOTPNum e := by norm_num; omega
    have hhi6 : generateOTPNum e < 10 ^ 6 := by norm_num; omega
    refine ⟨hlo, hhi, ?_, ?_, ?_⟩
    · show (String.mk (toDecimal (generateOTPNum e))).length = 6
      show (toDecimal (generateOTPNum e)).length = 6
      exact toDecimal_length 5 _ hlo5 hhi6
    · intro c hc
      obtain ⟨d, hd, rfl⟩ := toDecimal_mem _ c hc
      exact digitChar_isDigit d hd
    · show (toDecimal (generateOTPNum e)).head? ≠ some (Char.ofNat 48)
      rw [toDecimal_head 5 _ hlo5 hhi6]
      intro hcontra
      have h1 : 1 ≤ generateOTPNum e / 10 ^ 5 := by
        rw [Nat.le_div_iff_mul_le (by norm_num)]; norm_num; omega
      have h2 : generateOTPNum e / 10 ^ 5 < 10 := by
        rw [Nat.div_lt_iff_lt_mul (by norm_num)]; norm_num; omega
      exact digitChar_ne_zeroChar _ h1 h2 (Option.some.inj hcontra)
  · intro k hk1 hk2
    refine ⟨⟨k - 100000, by omega⟩, ?_, ?_⟩
    · show 100000 + (k - 100000) % 899999 = k
      omega
    · rintro ⟨v, hv⟩ h
      apply Fin.ext
      simp only [generateOTPNum, randomInt] at h
      show v = k - 100000
      omega

/-- C2 witness: the amended theorem applied at entropy 7 and target
value 123456. -/
theorem generateOTP_range_digits_uniform_witness :
    (100000 ≤ generateOTPNum 7 ∧ (generateOTP 7).length = 6) ∧
    (∃! e : Fin 899999, generateOTPNum e.val = 123456) :=
  ⟨⟨(generateOTP_range_digits_uniform.1 7).1,
    (generateOTP_range_digits_uniform.1 7).2.2.1⟩,
   generateOTP_range_digits_uniform.2 123456 (by norm_num) (by norm_num)⟩

/-! ### Pointwise lemmas on the store operations -/

theorem Store.set_self (s : Store) (k : String) (v : OtpRecord) :
    Store.set s k v k = some v := by
  simp [Store.set]

theorem Store.set_other (s : Store) (k : String) (v : OtpRecord) (q : String)
    (h : q ≠ k) : Store.set s k v q = s q := by
  simp [Store.set, h]

theorem Store.delete_self (s : Store) (k : String) : Store.delete s k k = none := by
  simp [Store.delete]

theorem Store.delete_other (s : Store) (k q : String) (h : q ≠ k) :
    Store.delete s k q = s q := by
  simp [Store.delete, h]

/-! ### Hex encoding of the proof token -/

theorem hexEncode_length (bytes : List Nat) :
    (hexEncode bytes).length = 2 * bytes.length := by
  show (List.flatten (bytes.map byteToHex)).length = 2 * bytes.length
  induction bytes with
  | nil => rfl
  | cons b t ih =>
    simp only [List.map_cons, List.flatten_cons, List.length_append, ih, byteToHex,
      List.length_cons, List.length_nil, List.length_singleton]
    omega

theorem hexDigitChar_cases (d : Nat) (hd : d < 16) :
    (hexDigitChar d).isDigit ∨ ('a' ≤ hexDigitChar d ∧ hexDigitChar d ≤ 'f') := by
  interval_cases d <;> decide

theorem hexEncode_chars (bytes : List Nat) :
    ∀ c ∈ (hexEncode bytes).data, c.isDigit ∨ ('a' ≤ c ∧ c ≤ 'f') := by
  intro c hc
  have hc2 : c ∈ List.flatten (bytes.map byteToHex) := hc
  rw [List.mem_flatten] at hc2
  obtain ⟨l, hl, hcl⟩ := hc2
  rw [List.mem_map] at hl
  obtain ⟨b, hb, rfl⟩ := hl
  simp only [byteToHex, List.mem_cons, List.not_mem_nil, or_false] at hcl
  rcases hcl with rfl | rfl
  · exact hexDigitChar_cases _ (by omega)
  · exact hexDigitChar_cases _ (by omega)

/-! ### Branch equations for `verify` -/

theorem verify_eq_of_none (s : Store) (now : Nat) (email code : String)
    (ent : List Nat) (h : s email = none) :
    verify s now email code ent = (.notFound, s) := by
  simp [verify, h]

theorem verify_eq_of_expired (s : Store) (now : Nat) (email code : String)
    (ent : List Nat) (r : OtpRecord) (h : s email = some r)
    (hexp : r.expiresAt < now) :
    verify s now email code ent = (.expired, Store.delete s email) := by
  simp [verify, h, hexp]

theorem verify_eq_of_exhausted (s : Store) (now : Nat) (email code : String)
    (ent : List Nat) (r : OtpRecord) (h : s email = some r)
    (hexp : now ≤ r.expiresAt) (hatt : 3 ≤ r.attempts) :
    verify s now email code ent = (.attemptsExhausted, Store.delete s email) := by
  have hlt : ¬ now > r.expiresAt := by omega
  simp [verify, h, hlt, hatt]

theorem verify_eq_of_match (s : Store) (now : Nat) (email code : String)
    (ent : List Nat) (r : OtpRecord) (h : s email = some r)
    (hexp : now ≤ r.expiresAt) (hatt : r.attempts < 3) (hcode : r.otp = code) :
    verify s now email code ent =
      (.success (hexEncode ent),
       Store.delete (Store.set s email { r with attempts := r.attempts + 1 }) email) := by
  have hlt : ¬ now > r.expiresAt := by omega
  have hex : ¬ 3 ≤ r.attempts := by omega
  simp [verify, h, hlt, hex, hcode]

theorem verify_eq_of_mismatch (s : Store) (now : Nat) (email code : String)
    (ent : List Nat) (r : OtpRecord) (h : s email = some r)
    (hexp : now ≤ r.expiresAt) (hatt : r.attempts < 3) (hcode : r.otp ≠ code) :
    verify s now email code ent =
      (.invalid (2 - (r.attempts : Int)),
       Store.set s email { r with attempts := r.attempts + 1 }) := by
  have hlt : ¬ now > r.expiresAt := by omega
  have hex : ¬ 3 ≤ r.attempts := by omega
  simp [verify, h, hlt, hex, hcode]
  split <;> omega

/-! ### Effect of `verify` on individual store keys -/

theorem verify_other_key (s : Store) (now : Nat) (email code : String)
    (ent : List Nat) (k : String) (hke : k ≠ email) :
    (verify s now email code ent).2 k = s k := by
  cases h : s email with
  | none => rw [verify_eq_of_none s now email code ent h]
  | some r =>
    rcases lt_or_le r.expiresAt now with hexp | hexp
    · rw [verify_eq_of_expired s now email code ent r h hexp]
      exact Store.delete_other s email k hke
    · by_cases hatt : 3 ≤ r.attempts
      · rw [verify_eq_of_exhausted s now email code ent r h hexp hatt]
        exact Store.delete_other s email k hke
      · by_cases hcode : r.otp = code
        · rw [verify_eq_of_match s now email code ent r h hexp (by omega) hcode]
          show Store.delete (Store.set s email { r with attempts := r.attempts + 1 })
            email k = s k
          rw [Store.delete_other _ email k hke, Store.set_other s email _ k hke]
        · rw [verify_eq_of_mismatch s now email code ent r h hexp (by omega) hcode]
          exact Store.set_other s email _ k hke

theorem verify_self_key (s : Store) (now : Nat) (email code : String)
    (ent : List Nat) :
    (verify s now email code ent).2 email = none ∨
    (verify s now email code ent).2 email = s email ∨
    (∃ r, s email = some r ∧ r.attempts < 3 ∧
      (verify s now email code ent).2 email =
        some { r with attempts := r.attempts + 1 }) := by
  cases h : s email with
  | none =>
    left
    rw [verify_eq_of_none s now email code ent h]
    exact h
  | some r =>
    rcases lt_or_le r.expiresAt now with hexp | hexp
    · left
      rw [verify_eq_of_expired s now email code ent r h hexp]
      exact Store.delete_self s email
    · by_cases hatt : 3 ≤ r.attempts
      · left
        rw [verify_eq_of_exhausted s now email code ent r h hexp hatt]
        exact Store.delete_self s email
      · by_cases hcode : r.otp = code
        · left
          rw [verify_eq_of_match s now email code ent r h hexp (by omega) hcode]
          exact Store.delete_self _ email
        · right; right
          refine ⟨r, rfl, by omega, ?_⟩
          rw [verify_eq_of_mismatch s now email code ent r h hexp (by omega) hcode]
          exact Store.set_self s email _

/-- Any store in which every record has `attempts ≤ 3` keeps that
property across a `verify` call: the counter is only ever incremented
from a value strictly below 3. -/
theorem verify_preserves_attempts_le (s : Store) (now : Nat) (email code : String)
    (ent : List Nat) (hinv : ∀ k rec, s k = some rec → rec.attempts ≤ 3) :
    ∀ k rec, (verify s now email code ent).2 k = some rec → rec.attempts ≤ 3 := by
  intro k rec hk
  by_cases hke : k = email
  · subst hke
    rcases verify_self_key s now k code ent with hval | hval | ⟨r, hr, hlt, hval⟩
    · rw [hval] at hk; cases hk
    · rw [hval] at hk; exact hinv k rec hk
    · rw [hval] at hk
      injection hk with hk2
      subst hk2
      show r.attempts + 1 ≤ 3
      omega
  · rw [verify_other_key s now email code ent k hke] at hk
    exact hinv k rec hk

/-! ### Claims about the verifier -/

/-- C3: for every record with `now` strictly greater than `expiresAt`,
`verify` returns `expired` and deletes the record in the same call; the
expiry check precedes both the exhaustion check and the code comparison
(the code and attempt counter are universally quantified, so an expired
record never consumes an attempt and never succeeds even on an exact
match). -/
theorem verify_expired_deletes (s : Store) (now : Nat) (email code : String)
    (ent : List Nat) (r : OtpRecord) (hfind : s email = some r)
    (hexp : r.expiresAt < now) :
    (verify s now email code ent).1 = .expired ∧
    (verify s now email code ent).2 email = none := by
  rw [verify_eq_of_expired s now email code ent r hfind hexp]
  exact ⟨rfl, Store.delete_self s email⟩

/-- C3 witness: an expired record, submitted with the exactly matching
code, still reports expired and is removed. -/
theorem verify_expired_deletes_witness :
    (verify (oneRecordStore 0) 2000 "a@example.com" "123456" []).1 = .expired ∧
    (verify (oneRecordStore 0) 2000 "a@example.com" "123456" []).2 "a@example.com" = none :=
  verify_expired_deletes (oneRecordStore 0) 2000 "a@example.com" "123456" []
    (sampleRecord 0) (by decide) (by decide)

/-- C4: for every unexpired record below the attempt limit, `verify` with
the exactly matching code returns `success` carrying the hex encoding of
the 32 random bytes (64 hex characters when 32 bytes are drawn) and
deletes the record, so any subsequent `verify` for the same identity
returns `notFound`. -/
theorem verify_success_consumes (s : Store) (now : Nat) (email : String)
    (ent : List Nat) (r : OtpRecord) (hfind : s email = some r)
    (hlive : now ≤ r.expiresAt) (hatt : r.attempts < 3) :
    (verify s now email r.otp ent).1 = .success (hexEncode ent) ∧
    (verify s now email r.otp ent).2 email = none ∧
    (ent.length = 32 → (hexEncode ent).length = 64 ∧
      ∀ c ∈ (hexEncode ent).data, c.isDigit ∨ ('a' ≤ c ∧ c ≤ 'f')) ∧
    (∀ (now2 : Nat) (code2 : String) (ent2 : List Nat),
      (verify ((verify s now email r.otp ent).2) now2 email code2 ent2).1 = .notFound) := by
  have heq := verify_eq_of_match s now email r.otp ent r hfind hlive hatt rfl
  have hnone : (verify s now email r.otp ent).2 email = none := by
    rw [heq]; exact Store.delete_self _ _
  refine ⟨by rw [heq], hnone, ?_, ?_⟩
  · intro hlen
    exact ⟨by rw [hexEncode_length, hlen], hexEncode_chars ent⟩
  · intro now2 code2 ent2
    rw [verify_eq_of_none _ _ _ _ _ hnone]

/-- C4 witness: the theorem applied to a live record with 32 bytes of
token entropy; the token is 64 characters and the follow-up verify
reports not-found. -/
theorem verify_success_consumes_witness :
    (verify (oneRecordStore 0) 500 "a@example.com" (sampleRecord 0).otp
      (List.replicate 32 0)).1 = .success (hexEncode (List.replicate 32 0)) ∧
    (hexEncode (List.replicate 32 0)).length = 64 ∧
    (verify ((verify (oneRecordStore 0) 500 "a@example.com" (sampleRecord 0).otp
      (List.replicate 32 0)).2) 600 "a@example.com" "123456" []).1 = .notFound := by
  have h := verify_success_consumes (oneRecordStore 0) 500 "a@example.com"
    (List.replicate 32 0) (sampleRecord 0) (by decide) (by decide) (by decide)
  exact ⟨h.1, (h.2.2.1 (by simp)).1, h.2.2.2 600 "123456" []⟩

/-- C5: for every unexpired record below the attempt limit, `verify` with
a non-matching code increments the attempts counter by one, stores the
record back, and returns `invalid` with
`remainingAttempts = 2 - attempts_before`. -/
theorem verify_invalid_increments (s : Store) (now : Nat) (email code : String)
    (ent : List Nat) (r : OtpRecord) (hfind : s email = some r)
    (hlive : now ≤ r.expiresAt) (hatt : r.attempts < 3) (hmis : r.otp ≠ code) :
    (verify s now email code ent).1 = .invalid (2 - (r.attempts : Int)) ∧
    (verify s now email code ent).2 email = some { r with attempts := r.attempts + 1 } := by
  rw [verify_eq_of_mismatch s now email code ent r hfind hlive hatt hmis]
  exact ⟨rfl, Store.set_self _ _ _⟩

/-- C5 witness: a record with one prior failed attempt, wrong code:
reports 1 remaining attempt and stores the counter at 2. -/
theorem verify_invalid_increments_witness :
    (verify (oneRecordStore 1) 500 "a@example.com" "000000" []).1 = .invalid 1 ∧
    (verify (oneRecordStore 1) 500 "a@example.com" "000000" []).2 "a@example.com" =
      some { otp := "123456", expiresAt := 1000, attempts := 2 } :=
  verify_invalid_increments (oneRecordStore 1) 500 "a@example.com" "000000" []
    (sampleRecord 1) (by decide) (by decide) (by decide) (by decide)

/-- C6: for every unexpired record whose attempts counter is already at or
beyond 3, `verify` returns `attemptsExhausted` and deletes the record; the
whole call result is independent of the submitted code (the code is never
compared), and no attempt is consumed. -/
theorem verify_exhausted_deletes (s : Store) (now : Nat) (email code : String)
    (ent : List Nat) (r : OtpRecord) (hfind : s email = some r)
    (hlive : now ≤ r.expiresAt) (hatt : 3 ≤ r.attempts) :
    (verify s now email code ent).1 = .attemptsExhausted ∧
    (verify s now email code ent).2 email = none ∧
    (∀ code2, verify s now email code2 ent = verify s now email code ent) := by
  have heq := verify_eq_of_exhausted s now email code ent r hfind hlive hatt
  refine ⟨by rw [heq], by rw [heq]; exact Store.delete_self _ _, ?_⟩
  intro code2
  rw [heq, verify_eq_of_exhausted s now email code2 ent r hfind hlive hatt]

/-- C6 witness: a record left at the limit (attempts = 3) is reaped with
the exhausted outcome even when the submitted code matches. -/
theorem verify_exhausted_deletes_witness :
    (verify (oneRecordStore 3) 500 "a@example.com" "123456" []).1 = .attemptsExhausted ∧
    (verify (oneRecordStore 3) 500 "a@example.com" "123456" []).2 "a@example.com" = none ∧
    verify (oneRecordStore 3) 500 "a@example.com" "999999" [] =
      verify (oneRecordStore 3) 500 "a@example.com" "123456" [] := by
  have h := verify_exhausted_deletes (oneRecordStore 3) 500 "a@example.com" "123456" []
    (sampleRecord 3) (by decide) (by decide) (by decide)
  exact ⟨h.1, h.2.1, h.2.2 "999999"⟩

/-- C7: `issue` unconditionally replaces any existing record with a fresh
one having `attempts = 0` and `expiresAt = now + 5` minutes; after two
successive issues for the same identity, the first code is treated as a
mismatch (provided the two drawn codes differ) and the second code
succeeds. -/
theorem issue_twice_replaces (s : Store) (now1 now2 now3 : Nat) (email : String)
    (e1 e2 : Nat) (ent : List Nat)
    (hdiff : generateOTP e1 ≠ generateOTP e2)
    (hlive : now3 ≤ now2 + 5 * 60 * 1000) :
    (issue (issue s now1 email e1).2 now2 email e2).1.attempts = 0 ∧
    (issue (issue s now1 email e1).2 now2 email e2).1.expiresAt = now2 + 5 * 60 * 1000 ∧
    (issue (issue s now1 email e1).2 now2 email e2).2 email =
      some (issue (issue s now1 email e1).2 now2 email e2).1 ∧
    (verify (issue (issue s now1 email e1).2 now2 email e2).2 now3 email
      (issue s now1 email e1).1.otp ent).1 = .invalid 2 ∧
    (verify (issue (issue s now1 email e1).2 now2 email e2).2 now3 email
      (issue (issue s now1 email e1).2 now2 email e2).1.otp ent).1 =
      .success (hexEncode ent) := by
  have hfind : (issue (issue s now1 email e1).2 now2 email e2).2 email =
      some { otp := generateOTP e2, expiresAt := now2 + 5 * 60 * 1000, attempts := 0 } :=
    Store.set_self _ _ _
  refine ⟨rfl, rfl, hfind, ?_, ?_⟩
  · show (verify (issue (issue s now1 email e1).2 now2 email e2).2 now3 email
      (generateOTP e1) ent).1 = .invalid 2
    rw [verify_eq_of_mismatch _ now3 email (generateOTP e1) ent _ hfind hlive
      (by norm_num) (Ne.symm hdiff)]
    norm_num
  · show (verify (issue (issue s now1 email e1).2 now2 email e2).2 now3 email
      (generateOTP e2) ent).1 = .success (hexEncode ent)
    rw [verify_eq_of_match _ now3 email (generateOTP e2) ent _ hfind hlive
      (by norm_num) rfl]

/-- C7 witness: two issues from the empty store with entropies 0 and 1
(codes "100000" and "100001"); the first code is rejected with 2
remaining attempts, the second succeeds. -/
theorem issue_twice_replaces_witness :
    (verify (issue (issue Store.empty 0 "a@example.com" 0).2 0 "a@example.com" 1).2
      100 "a@example.com" (issue Store.empty 0 "a@example.com" 0).1.otp []).1 =
      .invalid 2 ∧
    (verify (issue (issue Store.empty 0 "a@example.com" 0).2 0 "a@example.com" 1).2
      100 "a@example.com"
      (issue (issue Store.empty 0 "a@example.com" 0).2 0 "a@example.com" 1).1.otp []).1 =
      .success (hexEncode []) := by
  have h := issue_twice_replaces Store.empty 0 0 100 "a@example.com" 0 1 []
    (by simp [generateOTP, generateOTPNum, randomInt, numToString, toDecimal, digitChar])
    (by norm_num)
  exact ⟨h.2.2.2.1, h.2.2.2.2⟩

/-- C8: whenever the store has no live record under an identity — whether
one was never issued or a prior terminal outcome deleted it — `verify`
returns `notFound` and leaves the store unchanged; any two such calls
produce the same outcome, so the caller cannot distinguish the cases. -/
theorem verify_notFound_of_absent (s : Store) (now : Nat) (email code : String)
    (ent : List Nat) (hnone : s email = none) :
    verify s now email code ent = (.notFound, s) ∧
    (∀ (s2 : Store) (now2 : Nat) (code2 : String) (ent2 : List Nat),
      s2 email = none →
      (verify s2 now2 email code2 ent2).1 = (verify s now email code ent).1) := by
  refine ⟨verify_eq_of_none s now email code ent hnone, ?_⟩
  intro s2 now2 code2 ent2 h2
  rw [verify_eq_of_none s2 now2 email code2 ent2 h2,
    verify_eq_of_none s now email code ent hnone]

/-- C8 witness: the never-issued case (empty store) and the
previously-deleted case (store after a successful verification) both
report not-found. -/
theorem verify_notFound_of_absent_witness :
    verify Store.empty 0 "a@example.com" "123456" [] = (.notFound, Store.empty) ∧
    (verify ((verify (oneRecordStore 0) 500 "a@example.com" "123456" []).2)
      600 "a@example.com" "123456" []).1 =
      (verify Store.empty 0 "a@example.com" "123456" []).1 := by
  have h := verify_notFound_of_absent Store.empty 0 "a@example.com" "123456" []
    (by decide)
  exact ⟨h.1,
    h.2 ((verify (oneRecordStore 0) 500 "a@example.com" "123456" []).2) 600 "123456" []
      (by decide)⟩

/-- C9: at the exact expiry instant (`now = expiresAt`) the record is
still live: the strict comparison does not fire, the outcome is never
`expired`, and a matching code on a record below the attempt limit
succeeds. -/
theorem verify_at_expiry_instant (s : Store) (email code : String)
    (ent : List Nat) (r : OtpRecord) (hfind : s email = some r) :
    (verify s r.expiresAt email code ent).1 ≠ .expired ∧
    (r.attempts < 3 → r.otp = code →
      (verify s r.expiresAt email code ent).1 = .success (hexEncode ent)) := by
  have hle : r.expiresAt ≤ r.expiresAt := le_refl _
  constructor
  · by_cases hatt : 3 ≤ r.attempts
    · rw [verify_eq_of_exhausted s _ email code ent r hfind hle hatt]
      simp
    · by_cases hcode : r.otp = code
      · rw [verify_eq_of_match s _ email code ent r hfind hle (by omega) hcode]
        simp
      · rw [verify_eq_of_mismatch s _ email code ent r hfind hle (by omega) hcode]
        simp
  · intro hatt hcode
    rw [verify_eq_of_match s _ email code ent r hfind hle hatt hcode]

/-- C9 witness: a verify call at exactly the expiry millisecond with the
matching code succeeds. -/
theorem verify_at_expiry_instant_witness :
    (verify (oneRecordStore 0) (sampleRecord 0).expiresAt "a@example.com"
      "123456" []).1 ≠ .expired ∧
    (verify (oneRecordStore 0) (sampleRecord 0).expiresAt "a@example.com"
      "123456" []).1 = .success (hexEncode []) := by
  have h := verify_at_expiry_instant (oneRecordStore 0) "a@example.com" "123456" []
    (sampleRecord 0) (by decide)
  exact ⟨h.1, h.2 (by decide) (by decide)⟩

/-- C10: `issue` and `verify` for identity `x` leave the stored entry of
every other identity `y` — its presence and all its fields — unchanged. -/
theorem frame_other_identities (s : Store) (now : Nat) (x y : String)
    (hne : y ≠ x) (e : Nat) (code : String) (ent : List Nat) :
    (issue s now x e).2 y = s y ∧ (verify s now x code ent).2 y = s y :=
  ⟨Store.set_other s x _ y hne, verify_other_key s now x code ent y hne⟩

/-- C10 witness: issuing and verifying for `"b@example.com"` leaves the
record of `"a@example.com"` untouched. -/
theorem frame_other_identities_witness :
    (issue (oneRecordStore 1) 0 "b@example.com" 0).2 "a@example.com" =
      oneRecordStore 1 "a@example.com" ∧
    (verify (oneRecordStore 1) 0 "b@example.com" "123456" []).2 "a@example.com" =
      oneRecordStore 1 "a@example.com" :=
  frame_other_identities (oneRecordStore 1) 0 "b@example.com" "a@example.com"
    (by decide) 0 "123456" []

/-- C1 (counterexample): on `src/server.js` the claim fails.  Starting
from a live, unexpired record with `attempts = 2`, a verify call with a
non-matching code (post-increment count 3) reports
`remainingAttempts = 0` but does NOT delete the record in the same
call: the record is left stored with `attempts = 3`, so a stored record
can sit at the maximum. -/
theorem verify_thirdFailure_cex :
    (verify (oneRecordStore 2) 500 "a@example.com" "000000" []).1 =
      VerifyResult.invalid 0 ∧
    (verify (oneRecordStore 2) 500 "a@example.com" "000000" []).2 "a@example.com" =
      some { otp := "123456", expiresAt := 1000, attempts := 3 } := by
  decide

/-- C1 (amended): a verify call on a live, unexpired record with
`attempts = 2` and a non-matching code reports `remainingAttempts = 0`
but retains the record with `attempts = 3`; the record is deleted only
on the next verify call, by the exhaustion check; and no stored record
ever has attempts strictly above the maximum (the bound
`attempts ≤ 3` is preserved by every verify call). -/
theorem verify_thirdFailure_retained (s : Store) (now : Nat) (email code : String)
    (ent : List Nat) (r : OtpRecord) (hfind : s email = some r)
    (hatt : r.attempts = 2) (hlive : now ≤ r.expiresAt) (hmis : r.otp ≠ code) :
    (verify s now email code ent).1 = .invalid 0 ∧
    (verify s now email code ent).2 email = some { r with attempts := 3 } ∧
    (∀ (now2 : Nat) (code2 : String) (ent2 : List Nat), now2 ≤ r.expiresAt →
      (verify ((verify s now email code ent).2) now2 email code2 ent2).1 =
        .attemptsExhausted ∧
      (verify ((verify s now email code ent).2) now2 email code2 ent2).2 email =
        none) ∧
    (∀ (s2 : Store) (now2 : Nat) (email2 code2 : String) (ent2 : List Nat),
      (∀ k rec, s2 k = some rec → rec.attempts ≤ 3) →
      ∀ k rec, (verify s2 now2 email2 code2 ent2).2 k = some rec →
        rec.attempts ≤ 3) := by
  have hlt3 : r.attempts < 3 := by omega
  have heq := verify_eq_of_mismatch s now email code ent r hfind hlive hlt3 hmis
  have hrec : ({ r with attempts := r.attempts + 1 } : OtpRecord) =
      { r with attempts := 3 } := by
    rw [hatt]
  have hstore : (verify s now email code ent).2 email =
      some { r with attempts := 3 } := by
    rw [heq, ← hrec]
    exact Store.set_self s email _
  refine ⟨?_, hstore, ?_, ?_⟩
  · rw [heq, hatt]
    norm_num
  · intro now2 code2 ent2 hnow2
    have hexh := verify_eq_of_exhausted ((verify s now email code ent).2) now2 email
      code2 ent2 { r with attempts := 3 } hstore hnow2 (by norm_num)
    exact ⟨by rw [hexh], by rw [hexh]; exact Store.delete_self _ email⟩
  · intro s2 now2 email2 code2 ent2 hinv
    exact verify_preserves_attempts_le s2 now2 email2 code2 ent2 hinv

/-- C1 witness: the amended theorem at a concrete store; the third wrong
attempt reports 0 remaining and the next call is exhausted-then-gone. -/
theorem verify_thirdFailure_retained_witness :
    (verify (oneRecordStore 2) 500 "a@example.com" "000000" []).1 =
      VerifyResult.invalid 0 ∧
    (verify ((verify (oneRecordStore 2) 500 "a@example.com" "000000" []).2)
      600 "a@example.com" "111111" []).1 = .attemptsExhausted := by
  have h := verify_thirdFailure_retained (oneRecordStore 2) 500 "a@example.com"
    "000000" [] (sampleRecord 2) (by decide) (by decide) (by decide) (by decide)
  exact ⟨h.1, (h.2.2.1 600 "111111" [] (by decide)).1⟩

end Otp
